import Mathlib

/-!
Shallow embedding of `src/route_optimiser_app.py` (Route Optimiser Tool).

Conventions used throughout:
* `parse_house_number` models `re.search(r'(\d+)', str(address))` followed by
  `int(match.group(1))`: the value of the first maximal run of decimal digits,
  `none` when the regex does not match (the Python code returns `np.nan`).
* A pandas `DataFrame` of register rows is a `List` of records; `NaN` in the
  `Street` column after the `pd.Categorical` conversion is `Option.none`.
* `sort_values` on one key is modelled as a stable sort by that key
  (`List.insertionSort`); pandas' `na_position='last'` placement of `NaN`
  house numbers is modelled explicitly in `sort_by_housenum`.
-/

namespace RouteOptimiser

/-! ### House-Number Parser (`parse_house_number`, source lines 9-12) -/

/-- Value of one decimal digit character. -/
def digitVal (c : Char) : Nat := c.toNat - 48

/-- Numeric value of a digit run, as Python `int` reads it (base 10). -/
def natOfRun (run : List Char) : Nat := run.foldl (fun n c => 10 * n + digitVal c) 0

/-- The first maximal run of decimal digits of `cs`, as matched by
`re.search(r'(\d+)', ...)`; `none` when `cs` holds no digit. -/
def firstDigitRun : List Char → Option (List Char)
  | [] => none
  | c :: cs => if c.isDigit then some ((c :: cs).takeWhile Char.isDigit) else firstDigitRun cs

/-- Source `parse_house_number`: `int` of the first digit run of the address,
`np.nan` (here `none`) when there is none. -/
def parse_house_number (address : String) : Option Nat :=
  (firstDigitRun address.data).map natOfRun

/-! ### Register records and the classification / sequencing pipeline -/

/-- One uploaded register row: the two columns the core reads. The other
(pass-through) columns only matter to the output projection, modelled
separately by `project_row`. -/
structure InRecord where
  street : String
  address : String
  deriving DecidableEq

/-- A row after `pd.Categorical(df['Street'], categories=ordered_streets)`
(source line 34): a street absent from the categories becomes `NaN`. -/
structure Row where
  street : Option String
  address : String
  deriving DecidableEq

/-- The categorical conversion of the `Street` column (source line 34). -/
def categorize (ordered_streets : List String) (r : InRecord) : Row :=
  ⟨if ordered_streets.contains r.street then some r.street else none, r.address⟩

/-- Sort key of the ordered categorical `Street` column: the category code
(position in `ordered_streets`); `NaN` sorts after every category, in
original order (`na_position='last'`). -/
def streetKey (ordered_streets : List String) (row : Row) : Nat :=
  match row.street with
  | some s => ordered_streets.indexOf s
  | none => ordered_streets.length

/-- Source `df.sort_values(column)` on a single integer key column, modelled
as a stable sort by `key`. -/
def sortValuesBy (key : α → Nat) (l : List α) : List α :=
  l.insertionSort (fun a b => key a ≤ key b)

/-- Source `label_route_chunk` (lines 14-18): `"{street} (Unknown)"` when the
house number is `NaN`, else `"{street} (Odd)"` or `"{street} (Even)"` by the
parity of the parsed house number; a `NaN` street renders as `"nan"` in the
f-string. -/
def label_route_chunk (row : Row) : String :=
  let streetTxt := match row.street with | some s => s | none => "nan"
  match parse_house_number row.address with
  | none => streetTxt ++ " (Unknown)"
  | some n => if n % 2 = 1 then streetTxt ++ " (Odd)" else streetTxt ++ " (Even)"

/-- A row together with its `Route Chunk` column. -/
abbrev LRow := Row × String

/-- Source `assign_route_chunks` (lines 20-22). -/
def assign_route_chunks (rows : List Row) : List LRow :=
  rows.map (fun r => (r, label_route_chunk r))

/-- Scan for `uniqueFirst`: values already seen are kept, in reverse, in the
accumulator. -/
def uniqueFirstAux (acc : List String) : List String → List String
  | [] => acc.reverse
  | c :: cs =>
    if acc.contains c then uniqueFirstAux acc cs else uniqueFirstAux (c :: acc) cs

/-- First-appearance deduplication, which is how `df['Route Chunk'].unique()`
(source line 26) enumerates the chunk labels. -/
def uniqueFirst (l : List String) : List String := uniqueFirstAux [] l

/-- Source `chunk_df.sort_values('HouseNum')` (lines 28-29): rows whose
parsed house number exists are sorted by it; rows with a `NaN` house number
keep their relative order at the end (`na_position='last'`). -/
def sort_by_housenum (l : List LRow) : List LRow :=
  sortValuesBy (fun rc => (parse_house_number rc.1.address).getD 0)
      (l.filter (fun rc => (parse_house_number rc.1.address).isSome))
    ++ l.filter (fun rc => !(parse_house_number rc.1.address).isSome)

/-- Source `sort_addresses_by_chunk` (lines 24-31): for each chunk label in
first-appearance order, the chunk's rows sorted by house number, concatenated. -/
def sort_addresses_by_chunk (l : List LRow) : List LRow :=
  (uniqueFirst (l.map (fun rc => rc.2))).flatMap
    (fun c => sort_by_housenum (l.filter (fun rc => rc.2 == c)))

/-- A fully processed row: `Route Chunk` and `Route Order` columns added. -/
structure ORecord where
  street : Option String
  address : String
  chunk : String
  routeOrder : Nat
  deriving DecidableEq

instance : Inhabited ORecord := ⟨⟨none, "", "", 0⟩⟩

/-- The `Street`-sorted rows (source lines 34-35). -/
def street_sorted (records : List InRecord) (ordered_streets : List String) : List Row :=
  sortValuesBy (streetKey ordered_streets) (records.map (categorize ordered_streets))

/-- The `Street`-sorted rows with their `Route Chunk` labels (source line 36). -/
def labeled_rows (records : List InRecord) (ordered_streets : List String) : List LRow :=
  assign_route_chunks (street_sorted records ordered_streets)

/-- Source `assign_route_order` (lines 33-40): categorical street sort, chunk
labelling, per-chunk house-number sort, then `Route Order = index + 1` after
`reset_index(drop=True)`. -/
def assign_route_order (records : List InRecord) (ordered_streets : List String) :
    List ORecord :=
  (sort_addresses_by_chunk (labeled_rows records ordered_streets)).enum.map
    (fun p => ⟨p.2.1.street, p.2.1.address, p.2.2, p.1 + 1⟩)

/-- The worked example of the specification: four Elm St records, uploaded in
this order. -/
def elmExample : List InRecord :=
  [⟨"Elm St", "12A"⟩, ⟨"Elm St", "7"⟩, ⟨"Elm St", "9"⟩, ⟨"Elm St", "4"⟩]

/-! ### Python string primitives

The Python calls `str.strip()`, `str.split(',')` and `str.startswith(...)`
used by the source are modelled over the character list of the string. -/

/-- Whitespace as Python `str.strip` removes it (the ASCII whitespace that can
occur in the register and roster data). -/
def isSpaceChar (c : Char) : Bool :=
  c == ' ' || c == '\t' || c == '\n' || c == '\r' || c == '\x0b' || c == '\x0c'

/-- Python `s.strip()` over the characters of `s`. -/
def stripChars (cs : List Char) : List Char :=
  ((cs.dropWhile isSpaceChar).reverse.dropWhile isSpaceChar).reverse

/-- Python `s.strip()`. -/
def strip (s : String) : String := ⟨stripChars s.data⟩

/-- Python `s.split(',')` over characters: cut at every comma; the empty
string yields one empty piece. -/
def splitCommaChars : List Char → List (List Char)
  | [] => [[]]
  | c :: cs =>
    let rest := splitCommaChars cs
    if c == ',' then [] :: rest
    else
      match rest with
      | [] => [[c]]
      | r :: rs => (c :: r) :: rs

/-- Python `s.split(',')`. -/
def split_comma (s : String) : List String :=
  (splitCommaChars s.data).map (fun cs => ⟨cs⟩)

/-- Scan for Python `s.startswith(pre)`: `pre` exhausted means success. -/
def startsWithChars : List Char → List Char → Bool
  | _, [] => true
  | [], _ :: _ => false
  | c :: cs, d :: ds => c == d && startsWithChars cs ds

/-- Python `s.startswith(pre)`. -/
def py_startswith (s pre : String) : Bool := startsWithChars s.data pre.data

/-! ### Canvasser roster (source lines 42-46 and 81-91) -/

/-- A canvasser: `Name` and `Email` columns. -/
structure Canvasser where
  name : String
  email : String
  deriving DecidableEq

/-- Source `get_email_by_name` (lines 42-46): email of the first roster entry
with the given name, `""` when no entry matches. -/
def get_email_by_name (name : String) (canvassers : List Canvasser) : String :=
  match canvassers.find? (fun person => person.name == name) with
  | some person => person.email
  | none => ""

/-- Source comma-splitting of the manual entry boxes (lines 84-85):
`[n.strip() for n in text.split(',') if n.strip()]`. -/
def split_csv_field (text : String) : List String :=
  ((split_comma text).map strip).filter (fun n => !(n == ""))

/-- Source `Save Manual Canvassers` handler (lines 83-91): the parallel
name/email lists are zipped into the roster when their lengths match, else
the error message is shown and no roster is stored. -/
def save_manual_canvassers (manual_names manual_emails : String) :
    Except String (List Canvasser) :=
  let names := split_csv_field manual_names
  let emails := split_csv_field manual_emails
  if names.length = emails.length then
    .ok ((names.zip emails).map (fun p => ⟨p.1, p.2⟩))
  else
    .error "Number of names and emails must match."

/-- Whether an `Except` result carries a value. -/
def exceptOk (x : Except String (List Canvasser)) : Bool :=
  match x with
  | .ok _ => true
  | .error _ => false

/-! ### Assignment of canvassers and pairs (source lines 135-174) -/

/-- Python `dict.get(key, default)` over an insertion-ordered string map. -/
def lookupD (m : List (String × String)) (k d : String) : String :=
  match m.find? (fun p => p.1 == k) with
  | some p => p.2
  | none => d

/-- Python `st.session_state['pairs'].get(assignment, [])` (source line 161). -/
def lookupPairs (pairs : List (String × List String)) (k : String) : List String :=
  match pairs.find? (fun p => p.1 == k) with
  | some p => p.2
  | none => []

/-- Body of the attribution loop (source lines 158-171) for the row at
dataframe index `i` with chunk label `chunk`: the name and email appended to
`final_names` / `final_emails` on that iteration. -/
def final_name_email (use_pairs : Bool) (pairs : List (String × List String))
    (canvassers : List Canvasser) (chunk_assignments : List (String × String))
    (i : Nat) (chunk : String) : String × String :=
  let assignment := lookupD chunk_assignments chunk "Unassigned"
  if use_pairs && py_startswith assignment "Pair" then
    let pair_members := lookupPairs pairs assignment
    if pair_members.isEmpty then ("", "")
    else
      let selected_individual := pair_members.getD (i % pair_members.length) ""
      (selected_individual, get_email_by_name selected_individual canvassers)
  else
    ((if assignment == "Unassigned" then "" else assignment),
      get_email_by_name assignment canvassers)

/-- Source `final_names` (lines 156-173): one attributed name per processed
row, `i` being the row's position in the full processed dataset. -/
def final_names (use_pairs : Bool) (pairs : List (String × List String))
    (canvassers : List Canvasser) (chunk_assignments : List (String × String))
    (rows : List ORecord) : List String :=
  rows.enum.map
    (fun p => (final_name_email use_pairs pairs canvassers chunk_assignments p.1 p.2.chunk).1)

/-- Source `final_emails` (lines 157-174), the parallel email column. -/
def final_emails (use_pairs : Bool) (pairs : List (String × List String))
    (canvassers : List Canvasser) (chunk_assignments : List (String × String))
    (rows : List ORecord) : List String :=
  rows.enum.map
    (fun p => (final_name_email use_pairs pairs canvassers chunk_assignments p.1 p.2.chunk).2)

/-- Modelled from the spec: the Assignment Engine's automatic mode is absent
from `src/route_optimiser_app.py` (the file wires only the manual selectbox
flow), so the spec's rule "Chunk-level automatic balancing assigns
`chunks[i] → unit[i mod len(units)]`" over the first-encountered chunk list
is embedded here from the spec's words. -/
def auto_assign (chunks units : List String) : List (String × String) :=
  (List.range chunks.length).map
    (fun i => (chunks.getD i "", units.getD (i % units.length) ""))

/-! ### Output composition and export (source lines 176-197) -/

/-- Source `expected_cols` (line 118): the fixed electoral-register schema. -/
def expected_cols : List String :=
  ["Elector Number", "Full Name", "Address", "Street", "Postcode",
   "Polling District", "Ward Name", "Constituency Name", "Elector Type"]

/-- Source `output_columns` (line 183). -/
def output_columns : List String :=
  expected_cols ++
    ["Route Chunk", "Route Order", "Canvasser Name", "Canvasser Email",
     "Voter Intention", "Contacted?", "Date Contacted", "GOTV?", "Notes"]

/-- Source `df_processed = df_processed[output_columns]` (line 184), on one
row held as an association list from column name to cell text: exactly the
columns of `output_columns` are kept, in that order. -/
def project_row (row : List (String × String)) : List (String × String) :=
  output_columns.map (fun c => (c, lookupD row c ""))

/-- The column projection applied to the whole dataframe, one row per record. -/
def project_table (rows : List (List (String × String))) :
    List (List (String × String)) :=
  rows.map project_row

/-- Outcome of the export block (source lines 189-197). -/
inductive ExportOutcome where
  | incompleteWarning : ExportOutcome
  | offer : List (List (String × String)) → ExportOutcome
  deriving DecidableEq

/-- Source lines 189-197: when any chunk maps to `"Unassigned"` a blocking
warning replaces the download button and no file is offered; otherwise the
CSV download is offered. -/
def download_button (chunk_assignments : List (String × String))
    (table : List (List (String × String))) : ExportOutcome :=
  if (chunk_assignments.map (fun p => p.2)).contains "Unassigned" then
    .incompleteWarning
  else
    .offer table

/-! ### Session state around `Generate Route Plan` (source lines 126-130) -/

/-- The slice of `st.session_state` the route flow mutates. -/
structure Session where
  route_data : List ORecord
  assignments : List (String × String)
  deriving DecidableEq

/-- Source `Generate Route Plan` handler (lines 126-130): recompute
`route_data` and reset the stored assignment map to `{}`
("Reset assignments if rerun"). -/
def generate_route_plan (records : List InRecord) (ordered_streets : List String)
    (_sess : Session) : Session :=
  { route_data := assign_route_order records ordered_streets, assignments := [] }

/-- Source line 147: the stored selection a chunk's selectbox falls back to,
`st.session_state['assignments'].get(chunk, "Unassigned")`. -/
def assignment_default (assignments : List (String × String)) (chunk : String) : String :=
  lookupD assignments chunk "Unassigned"

/-! ### Structural lemmas about the sequencing pipeline -/

theorem mem_uniqueFirstAux {l : List String} :
    ∀ {acc : List String} {a : String}, a ∈ uniqueFirstAux acc l ↔ a ∈ acc ∨ a ∈ l := by
  induction l with
  | nil => intro acc a; simp [uniqueFirstAux]
  | cons c cs ih =>
    intro acc a
    simp only [uniqueFirstAux]
    by_cases h : acc.contains c
    · have hc : c ∈ acc := by simpa using h
      rw [if_pos h, ih]
      simp only [List.mem_cons]
      constructor
      · rintro (h1 | h1)
        · exact Or.inl h1
        · exact Or.inr (Or.inr h1)
      · rintro (h1 | rfl | h1)
        · exact Or.inl h1
        · exact Or.inl hc
        · exact Or.inr h1
    · rw [if_neg h, ih]
      simp only [List.mem_cons]
      tauto

theorem nodup_uniqueFirstAux {l : List String} :
    ∀ {acc : List String}, acc.Nodup → (uniqueFirstAux acc l).Nodup := by
  induction l with
  | nil => intro acc h; simpa [uniqueFirstAux] using h
  | cons c cs ih =>
    intro acc h
    simp only [uniqueFirstAux]
    by_cases hc : acc.contains c
    · rw [if_pos hc]; exact ih h
    · rw [if_neg hc]
      refine ih (List.nodup_cons.2 ⟨?_, h⟩)
      simpa using hc

theorem mem_uniqueFirst {l : List String} {a : String} : a ∈ uniqueFirst l ↔ a ∈ l := by
  simp [uniqueFirst, mem_uniqueFirstAux]

theorem nodup_uniqueFirst (l : List String) : (uniqueFirst l).Nodup :=
  nodup_uniqueFirstAux List.nodup_nil

theorem sortValuesBy_perm (key : α → Nat) (l : List α) : (sortValuesBy key l).Perm l :=
  List.perm_insertionSort _ l

theorem sort_by_housenum_perm (l : List LRow) : (sort_by_housenum l).Perm l := by
  unfold sort_by_housenum
  exact ((sortValuesBy_perm _ _).append_right _).trans (List.filter_append_perm _ l)

theorem flatMap_congr_mem {cs : List String} {f g : String → List β}
    (h : ∀ c ∈ cs, f c = g c) : cs.flatMap f = cs.flatMap g := by
  induction cs with
  | nil => rfl
  | cons c cs ih =>
    rw [List.flatMap_cons, List.flatMap_cons, h c (by simp),
      ih (fun x hx => h x (List.mem_cons_of_mem _ hx))]

theorem flatMap_filter_groups_perm (key : LRow → String) :
    ∀ (cs : List String) (l : List LRow), cs.Nodup → (∀ rc ∈ l, key rc ∈ cs) →
      (cs.flatMap (fun c => sort_by_housenum (l.filter (fun rc => key rc == c)))).Perm l := by
  intro cs
  induction cs with
  | nil =>
    intro l _ hall
    have hnil : l = [] := by
      cases l with
      | nil => rfl
      | cons a l => exact absurd (hall a (by simp)) (by simp)
    simp [hnil]
  | cons c cs ih =>
    intro l hnd hall
    rcases List.nodup_cons.1 hnd with ⟨hc, hnd2⟩
    rw [List.flatMap_cons]
    have htail : cs.flatMap (fun c2 => sort_by_housenum (l.filter (fun rc => key rc == c2)))
        = cs.flatMap (fun c2 => sort_by_housenum
            ((l.filter (fun rc => !(key rc == c))).filter (fun rc => key rc == c2))) := by
      apply flatMap_congr_mem
      intro c2 hc2
      have hne : c2 ≠ c := fun hEq => hc (hEq ▸ hc2)
      have hfilters : l.filter (fun rc => key rc == c2)
          = (l.filter (fun rc => !(key rc == c))).filter (fun rc => key rc == c2) := by
        rw [List.filter_filter]
        apply List.filter_congr
        intro rc _
        by_cases hkey : key rc = c2
        · simp [hkey, hne]
        · simp [hkey]
      rw [hfilters]
    have hperm2 : (cs.flatMap (fun c2 => sort_by_housenum
          ((l.filter (fun rc => !(key rc == c))).filter (fun rc => key rc == c2)))).Perm
        (l.filter (fun rc => !(key rc == c))) := by
      apply ih _ hnd2
      intro rc hrc
      have hne : ¬ ((key rc == c) = true) := by
        simpa using (List.mem_filter.1 hrc).2
      rcases List.mem_cons.1 (hall rc (List.mem_of_mem_filter hrc)) with hEq | hmem
      · exact absurd (by simp [hEq]) hne
      · exact hmem
    exact ((sort_by_housenum_perm _).append (htail ▸ hperm2)).trans
      (List.filter_append_perm _ l)

theorem sort_addresses_by_chunk_perm (l : List LRow) :
    (sort_addresses_by_chunk l).Perm l := by
  refine flatMap_filter_groups_perm (fun rc => rc.2) _ l (nodup_uniqueFirst _) ?_
  intro rc hrc
  exact mem_uniqueFirst.2 (List.mem_map_of_mem (fun rc => rc.2) hrc)

theorem assign_route_order_map_chunk (records : List InRecord) (o : List String) :
    (assign_route_order records o).map (fun r => r.chunk)
      = (sort_addresses_by_chunk (labeled_rows records o)).map (fun rc => rc.2) := by
  unfold assign_route_order
  rw [List.map_map]
  have h : ((fun r : ORecord => r.chunk) ∘
        (fun p : Nat × LRow => (⟨p.2.1.street, p.2.1.address, p.2.2, p.1 + 1⟩ : ORecord)))
      = (fun rc : LRow => rc.2) ∘ Prod.snd := rfl
  rw [h, ← List.map_map, List.enum_map_snd]

theorem assign_route_order_map_view (records : List InRecord) (o : List String) :
    (assign_route_order records o).map (fun r => (r.street, r.address, r.chunk))
      = (sort_addresses_by_chunk (labeled_rows records o)).map
          (fun rc => (rc.1.street, rc.1.address, rc.2)) := by
  unfold assign_route_order
  rw [List.map_map]
  have h : ((fun r : ORecord => (r.street, r.address, r.chunk)) ∘
        (fun p : Nat × LRow => (⟨p.2.1.street, p.2.1.address, p.2.2, p.1 + 1⟩ : ORecord)))
      = (fun rc : LRow => (rc.1.street, rc.1.address, rc.2)) ∘ Prod.snd := rfl
  rw [h, ← List.map_map, List.enum_map_snd]

theorem map_snd_sorted_group (l : List LRow) (c : String) :
    (sort_by_housenum (l.filter (fun rc => rc.2 == c))).map (fun rc => rc.2)
      = List.replicate ((l.map (fun rc => rc.2)).count c) c := by
  have hlen : (sort_by_housenum (l.filter (fun rc => rc.2 == c))).length
      = (l.map (fun rc => rc.2)).count c := by
    rw [(sort_by_housenum_perm _).length_eq, List.count_eq_countP, List.countP_map,
      ← List.countP_eq_length_filter]
    rfl
  have hall : ∀ b ∈ (sort_by_housenum (l.filter (fun rc => rc.2 == c))).map
      (fun rc => rc.2), b = c := by
    intro b hb
    rcases List.mem_map.1 hb with ⟨rc, hrc, rfl⟩
    have hmem : rc ∈ l.filter (fun rc => rc.2 == c) :=
      ((sort_by_housenum_perm _).mem_iff).1 hrc
    simpa using (List.mem_filter.1 hmem).2
  rw [List.eq_replicate_length.2 hall, List.length_map, hlen]

theorem categorize_of_mem {o : List String} {r : InRecord} (h : r.street ∈ o) :
    categorize o r = ⟨some r.street, r.address⟩ := by
  simp [categorize, h]

theorem out_chunk_eq_label (records : List InRecord) (o : List String) :
    ∀ r ∈ assign_route_order records o, r.chunk = label_route_chunk ⟨r.street, r.address⟩ := by
  intro r hr
  unfold assign_route_order at hr
  rcases List.mem_map.1 hr with ⟨p, hp, rfl⟩
  obtain ⟨i, rc⟩ := p
  have hsnd : rc ∈ sort_addresses_by_chunk (labeled_rows records o) := by
    have hmm := List.mem_map_of_mem Prod.snd hp
    rwa [List.enum_map_snd] at hmm
  have hlab : rc ∈ labeled_rows records o :=
    ((sort_addresses_by_chunk_perm _).mem_iff).1 hsnd
  rw [labeled_rows, assign_route_chunks] at hlab
  rcases List.mem_map.1 hlab with ⟨row, _, hEq⟩
  subst hEq
  rfl

theorem view_perm_canonical (records : List InRecord) (o : List String)
    (h : ∀ r ∈ records, r.street ∈ o) :
    ((assign_route_order records o).map (fun r => (r.street, r.address, r.chunk))).Perm
      (records.map (fun r => (some r.street, r.address,
        label_route_chunk ⟨some r.street, r.address⟩))) := by
  rw [assign_route_order_map_view]
  refine ((sort_addresses_by_chunk_perm (labeled_rows records o)).map _).trans ?_
  rw [labeled_rows, assign_route_chunks, List.map_map, street_sorted]
  refine ((sortValuesBy_perm (streetKey o) (records.map (categorize o))).map _).trans ?_
  rw [List.map_map]
  have hfun : ∀ r ∈ records,
      (((fun rc : LRow => (rc.1.street, rc.1.address, rc.2)) ∘
          (fun r : Row => (r, label_route_chunk r))) ∘ categorize o) r
        = (some r.street, r.address, label_route_chunk ⟨some r.street, r.address⟩) := by
    intro r hr
    simp only [Function.comp_apply, categorize_of_mem (h r hr)]
  rw [List.map_congr_left hfun]

/-! ### Claim C1 -/

/-- Claim C1 counterexample: on the specification's own Elm St example the
Route Sequencer does not emit house numbers 7,9,4,12; the Even chunk is
encountered first (record "12A" leads the street-sorted data), so the code
emits 4,12,7,9. -/
theorem route_sequencer_parity_order_cex :
    (assign_route_order elmExample ["Elm St"]).map (fun r => parse_house_number r.address)
        = [some 4, some 12, some 7, some 9]
      ∧ ¬ ((assign_route_order elmExample ["Elm St"]).map (fun r => parse_house_number r.address)
        = [some 7, some 9, some 4, some 12]) := by
  refine ⟨by decide, by decide⟩

/-- Claim C1 (amended): within the Route Sequencer's output the secondary key
is the chunk's first-appearance order in the street-sorted record set — the
chunk-label column of the output is exactly the first-appearance-ordered chunk
list expanded with each chunk's multiplicity (so chunks are contiguous blocks
in that order, parity classes are not reordered to Odd, Even, Unknown) — and
on the Elm St example the emitted order is 4,12,7,9 with routeOrder 1,2,3,4. -/
theorem route_sequencer_groups_chunks_by_first_appearance :
    (∀ (records : List InRecord) (ordered_streets : List String),
        (assign_route_order records ordered_streets).map (fun r => r.chunk)
            = (uniqueFirst ((labeled_rows records ordered_streets).map (fun rc => rc.2))).flatMap
                (fun c => List.replicate
                  (((labeled_rows records ordered_streets).map (fun rc => rc.2)).count c) c)
          ∧ (uniqueFirst ((labeled_rows records ordered_streets).map (fun rc => rc.2))).Nodup)
    ∧ (assign_route_order elmExample ["Elm St"]).map
          (fun r => (parse_house_number r.address, r.routeOrder))
        = [(some 4, 1), (some 12, 2), (some 7, 3), (some 9, 4)] := by
  constructor
  · intro records ordered_streets
    refine ⟨?_, nodup_uniqueFirst _⟩
    rw [assign_route_order_map_chunk, sort_addresses_by_chunk, List.map_flatMap]
    exact flatMap_congr_mem (fun c _ => map_snd_sorted_group (labeled_rows records ordered_streets) c)
  · decide

/-! ### Claim C5 -/

/-- Claim C5: a record's chunk label is a function of its street and parsed
house-number parity alone (`label_route_chunk` of its own row), and for any
two complete street orders the multiset of (street, address, chunk) triples
the Route Sequencer emits is the same — changing the street order can change
`routeOrder` but never any record's chunk identity; determinism is immediate
since the pipeline is a pure function of its two inputs. -/
theorem chunk_ids_independent_of_street_order :
    ∀ (records : List InRecord) (o1 o2 : List String),
      (∀ r ∈ records, r.street ∈ o1) → (∀ r ∈ records, r.street ∈ o2) →
      ((assign_route_order records o1).map (fun r => (r.street, r.address, r.chunk))).Perm
          ((assign_route_order records o2).map (fun r => (r.street, r.address, r.chunk)))
        ∧ ∀ r ∈ assign_route_order records o1,
            r.chunk = label_route_chunk ⟨r.street, r.address⟩ := by
  intro records o1 o2 h1 h2
  exact ⟨(view_perm_canonical records o1 h1).trans (view_perm_canonical records o2 h2).symm,
    out_chunk_eq_label records o1⟩

/-- A two-street register used to instantiate `chunk_ids_independent_of_street_order`. -/
def twoStreetExample : List InRecord :=
  [⟨"Oak Ave", "2"⟩, ⟨"Elm St", "1"⟩, ⟨"Elm St", "3"⟩]

/-- Witness for C5: the independence theorem applied to a concrete register
and the two opposite street orders. -/
theorem chunk_ids_independent_of_street_order_witness :
    ((assign_route_order twoStreetExample ["Elm St", "Oak Ave"]).map
        (fun r => (r.street, r.address, r.chunk))).Perm
        ((assign_route_order twoStreetExample ["Oak Ave", "Elm St"]).map
          (fun r => (r.street, r.address, r.chunk)))
      ∧ ∀ r ∈ assign_route_order twoStreetExample ["Elm St", "Oak Ave"],
          r.chunk = label_route_chunk ⟨r.street, r.address⟩ :=
  chunk_ids_independent_of_street_order twoStreetExample ["Elm St", "Oak Ave"]
    ["Oak Ave", "Elm St"] (by decide) (by decide)

/-! ### Claim C3 -/

theorem head_dropWhile_false (p : Char → Bool) :
    ∀ (l : List Char) (c : Char), (l.dropWhile p).head? = some c → p c = false := by
  intro l
  induction l with
  | nil => intro c h; simp [List.dropWhile] at h
  | cons a l ih =>
    intro c h
    by_cases ha : p a
    · simp only [List.dropWhile_cons, if_pos ha] at h
      exact ih c h
    · simp only [List.dropWhile_cons, if_neg ha, List.head?_cons, Option.some.injEq] at h
      subst h
      simpa using ha

theorem firstDigitRun_none_no_digit :
    ∀ cs : List Char, firstDigitRun cs = none → ∀ c ∈ cs, ¬ c.isDigit := by
  intro cs
  induction cs with
  | nil => intro _ c hc; simp at hc
  | cons a l ih =>
    intro h c hc
    by_cases ha : a.isDigit
    · simp only [firstDigitRun, if_pos ha] at h
      exact absurd h (by simp)
    · simp only [firstDigitRun, if_neg ha] at h
      rcases List.mem_cons.1 hc with rfl | hc2
      · simpa using ha
      · exact ih h c hc2

theorem firstDigitRun_decomp :
    ∀ (cs run : List Char), firstDigitRun cs = some run →
      ∃ pre post, cs = pre ++ run ++ post ∧ run ≠ []
        ∧ (∀ c ∈ run, c.isDigit) ∧ (∀ c ∈ pre, ¬ c.isDigit)
        ∧ (∀ c, post.head? = some c → ¬ c.isDigit) := by
  intro cs
  induction cs with
  | nil => intro run h; simp [firstDigitRun] at h
  | cons a l ih =>
    intro run h
    by_cases ha : a.isDigit
    · simp only [firstDigitRun, if_pos ha, Option.some.injEq] at h
      subst h
      refine ⟨[], (a :: l).dropWhile Char.isDigit, ?_, ?_, ?_, ?_, ?_⟩
      · simp [List.takeWhile_append_dropWhile]
      · simp [List.takeWhile_cons, ha]
      · intro c hc; exact List.mem_takeWhile_imp hc
      · simp
      · intro c hc
        have hfalse := head_dropWhile_false Char.isDigit (a :: l) c hc
        simp [hfalse]
    · simp only [firstDigitRun, if_neg ha] at h
      rcases ih run h with ⟨pre, post, hEq, hne, hrun, hpre, hpost⟩
      refine ⟨a :: pre, post, ?_, hne, hrun, ?_, hpost⟩
      · simp [hEq]
      · intro c hc
        rcases List.mem_cons.1 hc with rfl | hc2
        · simpa using ha
        · exact hpre c hc2

theorem foldl_digits_eq (run : List Char) :
    ∀ acc : Nat, run.foldl (fun n c => 10 * n + digitVal c) acc
      = Nat.ofDigits 10 ((run.map digitVal).reverse) + acc * 10 ^ run.length := by
  induction run with
  | nil => intro acc; simp [Nat.ofDigits]
  | cons c cs ih =>
    intro acc
    simp only [List.foldl_cons, ih, List.map_cons, List.reverse_cons, List.length_cons]
    rw [Nat.ofDigits_append]
    simp only [List.length_reverse, List.length_map, Nat.ofDigits_cons, Nat.ofDigits_nil]
    ring

theorem natOfRun_eq_ofDigits (run : List Char) :
    natOfRun run = Nat.ofDigits 10 ((run.map digitVal).reverse) := by
  have h := foldl_digits_eq run 0
  simpa [natOfRun] using h

/-- Claim C3: the House-Number Parser is a pure total function into
`Option Nat`: when it returns a number, the address decomposes as
non-digits, then a non-empty all-digit run, then a remainder that does not
start with a digit (so the run is the leftmost maximal digit run) and the
number is that run read in base 10; when it returns `none` ("unknown") the
address holds no digit at all — never zero-by-default, never an error; and
"Flat 2, 15 High Street" parses to 2. Determinism is immediate since the
parser is a function of the address string alone. -/
theorem parse_house_number_first_run_spec :
    (∀ (s : String) (n : Nat), parse_house_number s = some n →
        ∃ pre run post, s.data = pre ++ run ++ post ∧ run ≠ []
          ∧ (∀ c ∈ run, c.isDigit) ∧ (∀ c ∈ pre, ¬ c.isDigit)
          ∧ (∀ c, post.head? = some c → ¬ c.isDigit)
          ∧ n = natOfRun run ∧ n = Nat.ofDigits 10 ((run.map digitVal).reverse))
    ∧ (∀ s : String, parse_house_number s = none → ∀ c ∈ s.data, ¬ c.isDigit)
    ∧ parse_house_number "Flat 2, 15 High Street" = some 2 := by
  refine ⟨?_, ?_, by decide⟩
  · intro s n h
    unfold parse_house_number at h
    rcases hrun : firstDigitRun s.data with _ | run
    · rw [hrun] at h; simp at h
    · rw [hrun] at h
      simp only [Option.map_some', Option.some.injEq] at h
      rcases firstDigitRun_decomp s.data run hrun with ⟨pre, post, hEq, hne, hd, hp, hh⟩
      exact ⟨pre, run, post, hEq, hne, hd, hp, hh, h.symm,
        by rw [← h, natOfRun_eq_ofDigits]⟩
  · intro s h c hc
    unfold parse_house_number at h
    rcases hrun : firstDigitRun s.data with _ | run
    · exact firstDigitRun_none_no_digit s.data hrun c hc
    · rw [hrun] at h; simp at h

/-! ### Claim C2 -/

theorem countP_mod_range (U j : Nat) (hj : j < U) :
    ∀ C : Nat, (List.range C).countP (fun i => i % U == j)
      = C / U + (if j < C % U then 1 else 0) := by
  have hU : 0 < U := Nat.lt_of_le_of_lt (Nat.zero_le j) hj
  intro C
  induction C with
  | zero => simp
  | succ C ih =>
    rw [List.range_succ, List.countP_append, ih]
    obtain ⟨q, r, hqr, hrU, hq, hr⟩ :
        ∃ q r, U * q + r = C ∧ r < U ∧ C / U = q ∧ C % U = r :=
      ⟨C / U, C % U, Nat.div_add_mod C U, Nat.mod_lt _ hU, rfl, rfl⟩
    have hsingle : List.countP (fun i => i % U == j) [C] = if r = j then 1 else 0 := by
      simp [List.countP_cons, hr, beq_iff_eq]
    by_cases hcase : r + 1 = U
    · have hCsucc : C + 1 = U * (q + 1) := by rw [Nat.mul_succ]; omega
      have hdiv : (C + 1) / U = q + 1 := by
        rw [hCsucc, Nat.mul_div_cancel_left _ hU]
      have hmod : (C + 1) % U = 0 := by rw [hCsucc, Nat.mul_mod_right]
      rw [hdiv, hmod, hsingle, hq, hr]
      split_ifs <;> omega
    · have hCsucc : C + 1 = U * q + (r + 1) := by omega
      have hdiv : (C + 1) / U = q := by
        rw [hCsucc, Nat.mul_add_div hU, Nat.div_eq_of_lt (by omega), Nat.add_zero]
      have hmod : (C + 1) % U = r + 1 := by
        rw [hCsucc, Nat.mul_add_mod]
        exact Nat.mod_eq_of_lt (by omega)
      rw [hdiv, hmod, hsingle, hq, hr]
      split_ifs <;> omega

theorem auto_assign_count (chunks units : List String) (j : Nat)
    (hnd : units.Nodup) (hj : j < units.length) :
    (auto_assign chunks units).countP (fun pr => pr.2 == units.getD j "")
      = chunks.length / units.length
        + (if j < chunks.length % units.length then 1 else 0) := by
  have hU : 0 < units.length := Nat.lt_of_le_of_lt (Nat.zero_le j) hj
  rw [auto_assign, List.countP_map]
  have hpred : ∀ i ∈ List.range chunks.length,
      (((fun pr : String × String => pr.2 == units.getD j "") ∘
          (fun i => (chunks.getD i "", units.getD (i % units.length) ""))) i
        ↔ ((fun i => i % units.length == j) i : Bool)) := by
    intro i _
    have hiU : i % units.length < units.length := Nat.mod_lt _ hU
    simp only [Function.comp_apply, beq_iff_eq]
    rw [List.getD_eq_getElem units "" hiU, List.getD_eq_getElem units "" hj]
    exact hnd.getElem_inj_iff
  rw [List.countP_congr hpred]
  exact countP_mod_range units.length j hj chunks.length

theorem ceil_div_of_mod_pos {C U : Nat} (hU : 0 < U) (h : 0 < C % U) :
    (C + U - 1) / U = C / U + 1 := by
  have hrU : C % U < U := Nat.mod_lt _ hU
  obtain ⟨s, hs⟩ : ∃ s, C % U = s + 1 := ⟨C % U - 1, by omega⟩
  have hsU : s < U := by omega
  have hC : C = U * (C / U) + (s + 1) := by rw [← hs]; exact (Nat.div_add_mod C U).symm
  have hkey : C + U - 1 = U * (C / U + 1) + s := by
    rw [Nat.mul_succ]
    omega
  rw [hkey, Nat.mul_add_div hU, Nat.div_eq_of_lt hsU]

/-- Claim C2 (modelled from the spec, see `auto_assign`): the automatic
round-robin assigns chunk `i` to unit `i mod U` by construction, so for any
duplicate-free unit list every unit receives either `⌊C/U⌋` or `⌈C/U⌉`
(written `(C+U-1)/U`) of the `C` chunks; and with units Pair 1, Pair 2 and
chunks A,B,C the assignees are Pair 1, Pair 2, Pair 1. -/
theorem auto_assign_round_robin_balance :
    (∀ (chunks units : List String) (j : Nat), units.Nodup → j < units.length →
        (auto_assign chunks units).countP (fun pr => pr.2 == units.getD j "")
            = chunks.length / units.length
          ∨ (auto_assign chunks units).countP (fun pr => pr.2 == units.getD j "")
            = (chunks.length + units.length - 1) / units.length)
    ∧ auto_assign ["A", "B", "C"] ["Pair 1", "Pair 2"]
        = [("A", "Pair 1"), ("B", "Pair 2"), ("C", "Pair 1")] := by
  constructor
  · intro chunks units j hnd hj
    have hU : 0 < units.length := Nat.lt_of_le_of_lt (Nat.zero_le j) hj
    rw [auto_assign_count chunks units j hnd hj]
    by_cases hcase : j < chunks.length % units.length
    · right
      rw [if_pos hcase,
        ceil_div_of_mod_pos hU (Nat.lt_of_le_of_lt (Nat.zero_le j) hcase)]
    · left
      rw [if_neg hcase, Nat.add_zero]
  · decide

/-! ### Claim C4 -/

theorem final_names_getD_of_lt (use_pairs : Bool) (pairs : List (String × List String))
    (canvassers : List Canvasser) (chunk_assignments : List (String × String))
    (rows : List ORecord) (p : Nat) (hp : p < rows.length) :
    (final_names use_pairs pairs canvassers chunk_assignments rows).getD p ""
      = (final_name_email use_pairs pairs canvassers chunk_assignments p
          rows[p].chunk).1 := by
  have hlen : p < (rows.enum.map (fun q =>
      (final_name_email use_pairs pairs canvassers chunk_assignments q.1 q.2.chunk).1)).length := by
    simpa [List.enum_length] using hp
  rw [final_names, List.getD_eq_getElem _ "" hlen, List.getElem_map, List.getElem_enum]

/-- Claim C4: when pairing is on and a row's chunk is assigned to a pair name
with a non-empty member list, the row at position `p` of the full processed
dataset is attributed to member `p mod k` of that pair (`k` the pair size) —
the index is the dataframe index of `df_processed.iterrows()`, not the row's
position inside its chunk. -/
theorem pair_chunk_records_round_robin :
    ∀ (pairs : List (String × List String)) (canvassers : List Canvasser)
      (chunk_assignments : List (String × String)) (rows : List ORecord) (p : Nat)
      (hp : p < rows.length) (pairName : String) (members : List String),
      lookupD chunk_assignments rows[p].chunk "Unassigned" = pairName →
      py_startswith pairName "Pair" = true →
      lookupPairs pairs pairName = members →
      members ≠ [] →
      (final_names true pairs canvassers chunk_assignments rows).getD p ""
        = members.getD (p % members.length) "" := by
  intro pairs canvassers chunk_assignments rows p hp pairName members h1 h2 h3 h4
  rw [final_names_getD_of_lt true pairs canvassers chunk_assignments rows p hp]
  simp only [final_name_email, h1, h2, h3, Bool.true_and,
    List.isEmpty_eq_false_iff_exists_mem]
  have hne : members.isEmpty = false := by
    simpa [List.isEmpty_eq_false] using h4
  simp [hne]

/-- Register rows used to instantiate `pair_chunk_records_round_robin`. -/
def demoRows : List ORecord :=
  [⟨some "Elm St", "7", "Elm St (Odd)", 1⟩, ⟨some "Elm St", "9", "Elm St (Odd)", 2⟩]

/-- Witness for C4: the round-robin attribution theorem applied at the second
row (dataset position 1) of a two-row chunk assigned to Pair 1 = [Alice, Bob]. -/
theorem pair_chunk_records_round_robin_witness :
    (final_names true [("Pair 1", ["Alice", "Bob"])] [] [("Elm St (Odd)", "Pair 1")]
        demoRows).getD 1 ""
      = ["Alice", "Bob"].getD (1 % 2) "" :=
  pair_chunk_records_round_robin [("Pair 1", ["Alice", "Bob"])] []
    [("Elm St (Odd)", "Pair 1")] demoRows 1 (by decide) "Pair 1" ["Alice", "Bob"]
    (by decide) (by decide) (by decide) (by decide)

/-! ### Claim C7 -/

/-- Claim C7: the export step offers the CSV download exactly when no chunk
of the assignment map is mapped to "Unassigned"; with at least one chunk
"Unassigned" it instead reports the blocking incomplete-assignment warning
and no file is offered. -/
theorem export_gate_iff_fully_assigned :
    ∀ (chunk_assignments : List (String × String))
      (table : List (List (String × String))),
      (download_button chunk_assignments table = .offer table
          ↔ ∀ e ∈ chunk_assignments, e.2 ≠ "Unassigned")
        ∧ (download_button chunk_assignments table = .incompleteWarning
          ↔ ∃ e ∈ chunk_assignments, e.2 = "Unassigned") := by
  intro chunk_assignments table
  unfold download_button
  by_cases h : (chunk_assignments.map (fun pr => pr.2)).contains "Unassigned"
  · rw [if_pos h]
    have hmem : ∃ e ∈ chunk_assignments, e.2 = "Unassigned" := by
      have h2 : "Unassigned" ∈ chunk_assignments.map (fun pr => pr.2) :=
        List.elem_iff.1 h
      rcases List.mem_map.1 h2 with ⟨e, he, hEq⟩
      exact ⟨e, he, hEq⟩
    constructor
    · constructor
      · intro hEq
        exact absurd hEq (by simp)
      · intro hall
        rcases hmem with ⟨e, he, hEq⟩
        exact absurd hEq (hall e he)
    · exact ⟨fun _ => hmem, fun _ => rfl⟩
  · rw [if_neg h]
    have hno : ∀ e ∈ chunk_assignments, e.2 ≠ "Unassigned" := by
      intro e he hEq
      exact h (List.elem_iff.2 (hEq ▸ List.mem_map_of_mem (fun pr => pr.2) he))
    constructor
    · exact ⟨fun _ => hno, fun _ => rfl⟩
    · constructor
      · intro hEq
        exact absurd hEq (by simp)
      · intro hex
        rcases hex with ⟨e, he, hEq⟩
        exact absurd hEq (hno e he)

/-! ### Claim C8 -/

/-- Claim C8 counterexample: a pass-through input column beyond the fixed
expected electoral-register schema is present in the uploaded row but absent
from the projected output row — the Output Composer keeps only
`expected_cols`, it does not pass arbitrary input columns through. -/
theorem passthrough_column_dropped_cex :
    "Ward Colour" ∈ (expected_cols ++ ["Ward Colour"])
      ∧ (project_row ((expected_cols ++ ["Ward Colour"]).map (fun c => (c, "x")))).map
            (fun cell => cell.1) = output_columns
      ∧ ¬ ("Ward Colour" ∈ output_columns) := by decide

/-- Claim C8 (amended): the Output Composer's column order is the fixed nine
expected electoral-register columns (not all original input columns —
arbitrary extra pass-through columns are dropped by the projection), then
`Route Chunk`, `Route Order`, `Canvasser Name`, `Canvasser Email`, then the
fixed empty tracking columns `Voter Intention`, `Contacted?`,
`Date Contacted`, `GOTV?`, `Notes`, with one projected row per processed
record, in order. -/
theorem output_schema_fixed_columns :
    ∀ rows : List (List (String × String)),
      (project_table rows).length = rows.length
        ∧ (∀ r ∈ project_table rows, r.map (fun cell => cell.1) = output_columns)
        ∧ output_columns
            = ["Elector Number", "Full Name", "Address", "Street", "Postcode",
               "Polling District", "Ward Name", "Constituency Name", "Elector Type",
               "Route Chunk", "Route Order", "Canvasser Name", "Canvasser Email",
               "Voter Intention", "Contacted?", "Date Contacted", "GOTV?", "Notes"] := by
  intro rows
  refine ⟨List.length_map rows project_row, ?_, by decide⟩
  intro r hr
  rcases List.mem_map.1 hr with ⟨row, _, rfl⟩
  rw [project_row, List.map_map]
  exact List.map_id _

/-! ### Claim C9 -/

/-- Claim C9 counterexample: a manual roster whose two names are the same
duplicate "A" is accepted (no uniqueness validation exists in the handler) —
construction succeeds even though the name list is not duplicate-free. -/
theorem duplicate_roster_names_accepted_cex :
    save_manual_canvassers "A, A" "a@x.com, b@x.com"
        = .ok [⟨"A", "a@x.com"⟩, ⟨"A", "b@x.com"⟩]
      ∧ exceptOk (save_manual_canvassers "A, A" "a@x.com, b@x.com") = true
      ∧ ¬ (["A", "A"] : List String).Nodup := by
  refine ⟨rfl, by decide, by decide⟩

/-- Claim C9 (amended): manual roster construction fails exactly when the
stripped, non-empty name and email lists have different lengths; duplicate
canvasser names are not checked and do not cause a failure. -/
theorem manual_roster_validates_counts_only :
    ∀ manual_names manual_emails : String,
      exceptOk (save_manual_canvassers manual_names manual_emails) = true
        ↔ (split_csv_field manual_names).length
            = (split_csv_field manual_emails).length := by
  intro manual_names manual_emails
  unfold save_manual_canvassers
  by_cases h : (split_csv_field manual_names).length
      = (split_csv_field manual_emails).length
  · rw [if_pos h]
    simpa [exceptOk] using h
  · rw [if_neg h]
    simpa [exceptOk] using h

end RouteOptimiser
